import Mathlib

/-!
Shallow embedding of the shopee-tool userscript modules:
  src/main/utils.js          (ShopeeUtils)
  src/main/orderCrawler.js   (OrderCrawler)
  src/unnamed/part_000       (SNMatcher)
  src/unnamed/part_001       (AddressExtractor)
Pure functions become Lean functions; the mutable module caches become
explicit state values threaded through the operations; the asynchronous
timeout/message race of the address extractor becomes a small event-step
state machine processed by the single-threaded event loop order.
UI logging calls are dropped except for showError, whose invocation is the
error signal of an operation and is therefore part of the returned value.
-/

namespace Shopee

/-! JS helper semantics -/

/-- JS association map (Map): insertion-ordered list with unique keys.
Map.set replaces the value in place when the key is present, else appends. -/
def mapSet {α β : Type} [DecidableEq α] : List (α × β) → α → β → List (α × β)
| [], k, v => [(k, v)]
| p :: rest, k, v => if p.1 = k then (k, v) :: rest else p :: mapSet rest k v

/-- Map.get: first entry with the key (unique by construction). -/
def mapGet {α β : Type} [DecidableEq α] : List (α × β) → α → Option β
| [], _ => none
| p :: rest, k => if p.1 = k then some p.2 else mapGet rest k

/-- Helper for String.prototype.includes over char lists. -/
def includesAux (needle : List Char) : List Char → Bool
| [] => needle.isEmpty
| c :: rest => needle.isPrefixOf (c :: rest) || includesAux needle rest

/-- JS s.includes(sub). -/
def jsIncludes (s sub : String) : Bool := includesAux sub.data s.data

/-- JS (x).toFixed(1) followed by parseFloat, on the exact rational value:
round to one decimal, ties towards plus infinity (the values here are
nonnegative). The binary floating point detour of the source is modelled
by exact rational arithmetic. -/
def toFixed1 (q : ℚ) : ℚ := ((⌊q * 10 + 1 / 2⌋ : ℤ) : ℚ) / 10

/-- JS (x || defaultString) for a string-or-null value: the empty string is
falsy and is replaced like null. -/
def jsOrElse (o : Option String) (d : String) : String :=
  match o with
  | some s => if s = "" then d else s
  | none => d

/-- JS (x || null) for a string-or-absent value: the empty string collapses
to null. -/
def jsOrNull (o : Option String) : Option String :=
  match o with
  | some v => if v = "" then none else some v
  | none => none

/-- JS s.split with a newline separator, over char lists: n separators give
n + 1 parts, empty parts included. -/
def splitLinesAux : List Char → List (List Char)
| [] => [[]]
| c :: rest =>
  if c = '\n' then [] :: splitLinesAux rest
  else
    match splitLinesAux rest with
    | [] => [[c]]
    | line :: more => (c :: line) :: more

/-- JS input.split of a string on newline. -/
def jsSplitNewline (s : String) : List String := (splitLinesAux s.data).map String.mk

/-- Whitespace for String.prototype.trim (the code points occurring in this
development). -/
def isWS (c : Char) : Bool := (c == ' ') || (c == '\t') || (c == '\n') || (c == '\r')

/-- JS line.trim(): strip whitespace from both ends. -/
def jsTrim (s : String) : String :=
  String.mk (((s.data.dropWhile isWS).reverse.dropWhile isWS).reverse)

/-! ShopeeUtils (src/main/utils.js) -/

/-- Character class [A-Z0-9] of the return-SN format regex. -/
def validChar (c : Char) : Bool := (('A' ≤ c) && (c ≤ 'Z')) || (('0' ≤ c) && (c ≤ '9'))

/-- ShopeeUtils.validateReturnSn: regex test of [A-Z0-9] repeated 3 to 20
times, anchored at both ends (utils.js line 64). -/
def validateReturnSn (sn : String) : Bool :=
  decide (3 ≤ sn.length) && decide (sn.length ≤ 20) && sn.data.all validChar

/-! AddressExtractor (src/unnamed/part_001): warehouse classification -/

/-- AddressExtractor.warehouseRules (part_001 lines 27-31), in the order
Object.entries iterates it: all three keys are integer-like strings, so
ECMAScript enumerates them in ascending numeric order (14460, 50121, 61254),
not in the textual order of the object literal. -/
def warehouseRules : List (String × String) :=
  [("14460", "BI JKT"), ("50121", "BI SMR"), ("61254", "BI SBY")]

/-- AddressExtractor.identifyWarehouse (part_001 lines 44-54). The argument
is Option String because the address may be null or absent; a null, absent
or empty address is falsy and yields the unknown label 未知, no matching
rule yields the other label 其他. -/
def identifyWarehouse (address : Option String) : String :=
  match address with
  | none => "未知"
  | some a =>
    if a = "" then "未知"
    else
      match warehouseRules.find? (fun rule => jsIncludes a rule.1) with
      | some rule => rule.2
      | none => "其他"

/-! AddressExtractor: per-pair extraction state machine -/

/-- EnrichmentResult of one pair (part_001 result objects). The wall-clock
timestamp field of the source is omitted (real time). -/
structure EnrichResult where
  success : Bool
  return_sn : String
  return_id : String
  address : String
  warehouse : String
deriving DecidableEq

/-- The timeout resolution value (part_001 lines 102-109). -/
def timeoutResult (sn id : String) : EnrichResult :=
  ⟨false, sn, id, "提取超时", "未知"⟩

/-- The blocked-window resolution value (part_001 lines 74-81). -/
def blockedResult (sn id : String) : EnrichResult :=
  ⟨false, sn, id, "窗口被阻止", "未知"⟩

/-- An out-of-band window message payload (event.data). -/
structure MessageData where
  type : String
  orderId : String
  success : Bool
  address : Option String
deriving DecidableEq

/-- The result built by the message handler (part_001 lines 124-133). -/
def messageResult (sn id : String) (m : MessageData) : EnrichResult :=
  ⟨m.success, sn, id, jsOrElse m.address ("未找到地址"), identifyWarehouse m.address⟩

/-- Whether a message is the correlated address message for this pair
(part_001 lines 116-119). -/
def isAddrMsg (id : String) (m : MessageData) : Bool :=
  (m.type == "SHOPEE_ADDRESS_EXTRACTED") && (m.orderId == id)

/-- State of one extractAddress invocation after the window opened:
membership of returnId in cache.processing, whether clearTimeout ran,
whether the message listener was removed, the promise value (a JS promise
resolves at most once; later resolve calls are ignored), and the
cache.results entry written for this return_sn. -/
structure PairState where
  processingHas : Bool
  timerCleared : Bool
  listenerRemoved : Bool
  promiseResult : Option EnrichResult
  cacheResult : Option EnrichResult
deriving DecidableEq

/-- State right after window.open succeeded and processing.add ran. -/
def initState : PairState := ⟨true, false, false, none, none⟩

/-- Events delivered by the event loop to one extractAddress invocation. -/
inductive PairEvent where
| timerFire : PairEvent
| message : MessageData → PairEvent
deriving DecidableEq

/-- JS promise resolution: only the first resolve call sets the value. -/
def resolveOnce : Option EnrichResult → EnrichResult → Option EnrichResult
| none, r => some r
| some r0, _ => some r0

/-- One event processed against the state, following part_001:
timer callback (lines 89-111) runs only if the timer was not cleared and
is guarded by the processing-set membership check; the message handler
(lines 114-158) runs while the listener is installed, checks type and
orderId, then clears the timer, removes the id, removes the listener,
stores the classified result in cache.results and resolves. -/
def stepEvent (sn id : String) (s : PairState) : PairEvent → PairState
| .timerFire =>
  if s.timerCleared then s
  else if s.processingHas then
    { s with processingHas := false,
             promiseResult := resolveOnce s.promiseResult (timeoutResult sn id) }
  else s
| .message m =>
  if s.listenerRemoved then s
  else if isAddrMsg id m then
    { s with processingHas := false, timerCleared := true, listenerRemoved := true,
             cacheResult := some (messageResult sn id m),
             promiseResult := resolveOnce s.promiseResult (messageResult sn id m) }
  else s

/-- Environment of one pair: either the popup window was blocked, or it
opened and the given messages arrive (in order) before the timer fires.
The timer of the source always fires at the 30000 ms deadline unless
cleared, hence a trailing timerFire event. -/
inductive PairBehavior where
| blocked : PairBehavior
| events : List MessageData → PairBehavior
deriving DecidableEq

/-- AddressExtractor.extractAddress (part_001 lines 62-160) as a function of
the pair and its environment: the value the returned promise settles with. -/
def extractAddress (sn id : String) : PairBehavior → EnrichResult
| .blocked => blockedResult sn id
| .events msgs =>
  (stepEvent sn id
      (msgs.foldl (fun st m => stepEvent sn id st (.message m)) initState)
      .timerFire).promiseResult.getD (timeoutResult sn id)

/-! AddressExtractor: bounded-concurrency pool -/

/-- config.maxConcurrent (part_001 line 21). -/
def maxConcurrent : Nat := 3

/-- State of the extractAddresses pool: pending queue, in-flight pairs,
results in completion order. -/
structure PoolState where
  queue : List (String × String)
  inflight : List (String × String)
  results : List EnrichResult
deriving DecidableEq

/-- The dispatch while-loop of processNext (part_001 lines 181-213): move
items from the front of the queue into the in-flight list while a slot is
free. -/
def refill (max : Nat) :
    List (String × String) → List (String × String) →
    (List (String × String) × List (String × String))
| [], infl => ([], infl)
| p :: rest, infl =>
  if infl.length < max then refill max rest (infl ++ [p]) else (p :: rest, infl)

/-- The pool of extractAddresses (part_001 lines 168-225). Completion order
is unconstrained, so it is an input: each schedule entry picks which
in-flight item completes next (index modulo the in-flight count); the
completed item appends its result and frees its slot, after which the
queue refills the pool. -/
def runPool (f : (String × String) → EnrichResult) (max : Nat) :
    List Nat → PoolState → PoolState
| [], st => ⟨(refill max st.queue st.inflight).1, (refill max st.queue st.inflight).2, st.results⟩
| c :: rest, st =>
  match refill max st.queue st.inflight with
  | (q2, infl2) =>
    match infl2 with
    | [] => ⟨q2, [], st.results⟩
    | x :: xs =>
      runPool f max rest
        ⟨q2, (x :: xs).eraseIdx (c % (x :: xs).length),
         st.results ++ [f ((x :: xs).getD (c % (x :: xs).length) x)]⟩

/-- AddressExtractor.extractAddresses: run every dispatched pair through
extractAddress under the fixed concurrency limit. -/
def extractAddresses (env : (String × String) → PairBehavior)
    (pairs : List (String × String)) (sched : List Nat) : PoolState :=
  runPool (fun pr => extractAddress pr.1 pr.2 (env pr)) maxConcurrent sched ⟨pairs, [], []⟩

/-! SNMatcher (src/unnamed/part_000) -/

/-- The two showError signals of parseUserInput: invalid or empty input
(part_000 line 34) and no valid SN remaining (line 61). -/
inductive ParseError where
| invalidInput : ParseError
| noValidSns : ParseError
deriving DecidableEq

/-- Result of SNMatcher.parseUserInput: returned key list, number of
dropped invalid lines (line 56), and the showError signal if any. -/
structure ParseOutcome where
  keys : List String
  invalidCount : Nat
  errorShown : Option ParseError
deriving DecidableEq

/-- SNMatcher.parseUserInput (part_000 lines 32-69). The argument is
Option String to cover a null or absent input; the empty string is falsy
and takes the same guard branch. -/
def parseUserInput : Option String → ParseOutcome
| none => ⟨[], 0, some ParseError.invalidInput⟩
| some input =>
  if input = "" then ⟨[], 0, some ParseError.invalidInput⟩
  else
    let lines := ((jsSplitNewline input).map jsTrim).filter
      (fun line => decide (0 < line.length))
    let validSns := lines.filter validateReturnSn
    let invalidSns := lines.filter (fun l => !(validateReturnSn l))
    if validSns = [] then ⟨[], invalidSns.length, some ParseError.noValidSns⟩
    else ⟨validSns, invalidSns.length, none⟩

/-- The two showError signals of matchReturnSns: no SNs to match
(part_000 line 79) and no crawled order data (line 88). -/
inductive MatcherError where
| emptyInput : MatcherError
| noData : MatcherError
deriving DecidableEq

/-- The object matchReturnSns returns (part_000 lines 134-138). -/
structure MatchOutcome where
  matched : List (String × String)
  unmatched : List String
  matchRate : ℚ
deriving DecidableEq

/-- SNMatcher.cache (part_000 lines 20-25). -/
structure MatcherCache where
  userInput : List String
  matchedResults : List (String × String)
  unmatchedSns : List String
  snToIdMap : List (String × String)
deriving DecidableEq

/-- Full observable outcome of one matchReturnSns call: the returned
object, the showError signal if any, and the cache afterwards. -/
structure MatchCall where
  outcome : MatchOutcome
  errorShown : Option MatcherError
  cache : MatcherCache
deriving DecidableEq

/-- The forEach loop of matchReturnSns (part_000 lines 101-114): an entry
of the crawled map appends a matched pair and writes it into the
cache.snToIdMap, a miss appends to the unmatched list. The combined
has-then-get of the source is the single mapGet here: in this model a
stored value is never the JS undefined, so has is exactly get-is-some. -/
def matchLoop (m : List (String × String)) :
    List String → List (String × String) → List String → List (String × String) →
    (List (String × String) × List String × List (String × String))
| [], ms, us, cmap => (ms, us, cmap)
| sn :: rest, ms, us, cmap =>
  match mapGet m sn with
  | some rid => matchLoop m rest (ms ++ [(sn, rid)]) us (mapSet cmap sn rid)
  | none => matchLoop m rest ms (us ++ [sn]) cmap

/-- SNMatcher.matchReturnSns (part_000 lines 77-139). The crawled map is
Option to cover a null argument; the match rate follows the source
formula (length ratio times 100, toFixed(1), parseFloat). -/
def matchReturnSns (userSns : List String)
    (crawledMap : Option (List (String × String))) (c : MatcherCache) : MatchCall :=
  if userSns = [] then ⟨⟨[], [], 0⟩, some MatcherError.emptyInput, c⟩
  else
    match crawledMap with
    | none => ⟨⟨[], userSns, 0⟩, some MatcherError.noData, c⟩
    | some m =>
      if m = [] then ⟨⟨[], userSns, 0⟩, some MatcherError.noData, c⟩
      else
        match matchLoop m userSns [] [] c.snToIdMap with
        | (ms, us, cmap) =>
          ⟨⟨ms, us, toFixed1 ((ms.length : ℚ) / (userSns.length : ℚ) * 100)⟩, none,
           ⟨c.userInput, ms, us, cmap⟩⟩

/-- SNMatcher.getReturnId (part_000 lines 170-172): map lookup with the
JS (value || null) coercion. -/
def getReturnId (c : MatcherCache) (returnSn : String) : Option String :=
  jsOrNull (mapGet c.snToIdMap returnSn)

/-- SNMatcher.clearCache (part_000 lines 177-183). -/
def clearCache (_ : MatcherCache) : MatcherCache := ⟨[], [], [], []⟩

/-- Whether the index argument of matchReturnSns is absent or empty
(the guard of part_000 line 87). -/
def mapIsEmptyOpt : Option (List (String × String)) → Bool
| none => true
| some m => m.isEmpty

/-! OrderCrawler (src/main/orderCrawler.js) -/

/-- An untyped JS field value as far as the record filter inspects it:
null, undefined, a string, or a number. -/
inductive FieldVal where
| vNull : FieldVal
| vUndef : FieldVal
| vStr : String → FieldVal
| vNum : Int → FieldVal
deriving DecidableEq

/-- A raw record of the list API: the two inspected fields plus the
remaining fields the projection drops. A null array entry is modelled as
Option none at the use site. -/
structure RawRecord where
  return_id : FieldVal
  return_sn : FieldVal
  extra : List (String × FieldVal)
deriving DecidableEq

/-- The canonical projected record: exactly return_id and return_sn
(orderCrawler.js lines 218-222). -/
structure ReturnRecord where
  return_id : FieldVal
  return_sn : FieldVal
deriving DecidableEq

/-- The four validity checks on one field (orderCrawler.js lines 210-217):
not null, not undefined, not the empty string, not the number 0. -/
def itemFieldOk (v : FieldVal) : Bool :=
  !(v == FieldVal.vNull) && !(v == FieldVal.vUndef) &&
  !(v == FieldVal.vStr ("")) && !(v == FieldVal.vNum 0)

/-- The combined filter predicate and projection of one array entry
(item truthy, both fields valid, keep the two fields). -/
def keepItem : Option RawRecord → Option ReturnRecord
| none => none
| some r =>
  if itemFieldOk r.return_id && itemFieldOk r.return_sn then
    some ⟨r.return_id, r.return_sn⟩
  else none

/-- OrderCrawler.filterValidData (orderCrawler.js lines 202-230): the kept
projected records together with the reported filtered-out count
(input length minus output length, line 224). A non-array input gives an
empty output and no reported count. -/
def filterValidData : Option (List (Option RawRecord)) → (List ReturnRecord × Nat)
| none => ([], 0)
| some arr => (arr.filterMap keepItem, arr.length - (arr.filterMap keepItem).length)

/-- The snToIdMap build of crawlOrders (orderCrawler.js lines 313-317):
clear, then set return_sn to return_id for each filtered record in order. -/
def buildSnToIdMap (records : List ReturnRecord) : List (FieldVal × FieldVal) :=
  records.foldl (fun m r => mapSet m r.return_sn r.return_id) []

/-- pagination_info of a page response: the has_more flag (absent means
undefined) and cursor.cursor_offset when present. -/
structure PaginationInfo where
  has_more : Option Bool
  cursor_offset : Option Int
deriving DecidableEq

/-- Where the record array sits in the response: the nested
exceptional_case_list field, a top-level data array, or neither
(orderCrawler.js lines 265-269). -/
inductive RespData where
| caseList : List (Option RawRecord) → RespData
| topArr : List (Option RawRecord) → RespData
| neither : RespData
deriving DecidableEq

/-- A parsed page response. -/
structure ApiResponse where
  respData : RespData
  pagination : Option PaginationInfo
deriving DecidableEq

/-- Outcome of fetchPageData: a rejection (network error, parse failure or
nonzero error field, lines 183-192) or a parsed response. -/
inductive FetchOutcome where
| err : FetchOutcome
| ok : ApiResponse → FetchOutcome
deriving DecidableEq

/-- The record array located in the response, if any. -/
def respItems : RespData → Option (List (Option RawRecord))
| .caseList l => some l
| .topArr l => some l
| .neither => none

/-- config.pageSize (orderCrawler.js line 23). -/
def pageSize : Nat := 50

/-- JS truthy coercion of paginationInfo.has_more || false (line 274). -/
def coerceHasMore : Option Bool → Bool
| some b => b
| none => false

/-- The next cursor offset (line 275): cursor_offset when present and
truthy, else currentPage times pageSize. -/
def nextOffset (page : Nat) (pinfo : PaginationInfo) : Int :=
  match pinfo.cursor_offset with
  | some o => if o = 0 then (page : Int) * (pageSize : Int) else o
  | none => (page : Int) * (pageSize : Int)

/-- One iteration of the crawl page loop (orderCrawler.js lines 255-300)
given the fetch outcome of this page. A rejection breaks with the records
collected so far; a missing or empty record array breaks; a present
pagination with has_more strictly false breaks after appending; a present
pagination whose coerced has_more is false makes the while condition fail
before the next fetch, which is the same exit; otherwise the loop
continues on the next page. An absent pagination leaves hasMoreData and
currentOffset unchanged (hasMoreData is true inside the loop). -/
def crawlBody (res : FetchOutcome) (page : Nat) (offset : Int)
    (acc : List (Option RawRecord))
    (recurse : Nat → Int → List (Option RawRecord) → Option (List (Option RawRecord))) :
    Option (List (Option RawRecord)) :=
  match res with
  | .err => some acc
  | .ok resp =>
    match respItems resp.respData with
    | none => some acc
    | some items =>
      if items = [] then some acc
      else
        match resp.pagination with
        | none => recurse (page + 1) offset (acc ++ items)
        | some pinfo =>
          if pinfo.has_more = some false then some (acc ++ items)
          else if coerceHasMore pinfo.has_more then
            recurse (page + 1) (nextOffset page pinfo) (acc ++ items)
          else some (acc ++ items)

/-- The crawl page loop with fuel: none means the fuel ran out before the
loop exited. The server is a function of the page number (the page number
advances by one per iteration, so the cursor offset the code sends with
the request is determined by the page history; the offset is still
threaded through the loop state exactly as currentOffset is). -/
def crawlLoop (server : Nat → FetchOutcome) :
    Nat → Nat → Int → List (Option RawRecord) → Option (List (Option RawRecord))
| 0, _, _, _ => none
| fuel + 1, page, offset, acc =>
  crawlBody (server page) page offset acc
    (fun pg off ac => crawlLoop server fuel pg off ac)

/-- The three terminating fetch outcomes of the claim: an error, a missing
or empty record array, or has_more explicitly false. -/
def isTerminalResp : FetchOutcome → Bool
| .err => true
| .ok resp =>
  match respItems resp.respData with
  | none => true
  | some items =>
    items.isEmpty ||
      (match resp.pagination with
       | some pinfo => pinfo.has_more == some false
       | none => false)

/-! Concrete sample values used by the witness theorems -/

/-- A correlated address message for pair SN1 / ID1. -/
def msgEx : MessageData :=
  ⟨"SHOPEE_ADDRESS_EXTRACTED", "ID1", true, some ("Jl. Gudang 50121 Semarang")⟩

/-- A server returning two data pages and then an empty page. -/
def serverEx : Nat → FetchOutcome := fun page =>
  if page < 3 then
    .ok ⟨.caseList [some ⟨.vNum 7, .vStr ("SNX"), []⟩], some ⟨some true, some 120⟩⟩
  else
    .ok ⟨.caseList [], none⟩

/-! Map lemmas -/

theorem mapGet_mapSet {α β : Type} [DecidableEq α] (m : List (α × β)) (a k : α) (b : β) :
    mapGet (mapSet m a b) k = if a = k then some b else mapGet m k := by
  induction m with
  | nil => simp [mapSet, mapGet]
  | cons p rest ih =>
    by_cases hp : p.1 = a
    · simp only [mapSet, if_pos hp, mapGet]
      by_cases hak : a = k
      · simp [hak]
      · have hpk : ¬ p.1 = k := by rw [hp]; exact hak
        simp [hak, hpk]
    · simp only [mapSet, if_neg hp, mapGet, ih]
      by_cases hpk : p.1 = k
      · have hak : ¬ a = k := by intro h; exact hp (by rw [hpk, h])
        simp [hpk, hak]
      · simp [hpk]

theorem mapSet_length {α β : Type} [DecidableEq α] (m : List (α × β)) (a : α) (b : β) :
    (mapSet m a b).length = if (mapGet m a).isSome then m.length else m.length + 1 := by
  induction m with
  | nil => simp [mapSet, mapGet]
  | cons p rest ih =>
    by_cases hp : p.1 = a
    · simp [mapSet, mapGet, hp]
    · simp only [mapSet, if_neg hp, mapGet, List.length_cons, ih]
      by_cases hs : (mapGet rest a).isSome <;> simp [hs, hp]

theorem foldl_mapSet_get {α β : Type} [DecidableEq α] (pairs : List (α × β))
    (m0 : List (α × β)) (k : α) :
    mapGet (pairs.foldl (fun m p => mapSet m p.1 p.2) m0) k
      = match pairs.reverse.find? (fun p => p.1 == k) with
        | some p => some p.2
        | none => mapGet m0 k := by
  induction pairs generalizing m0 with
  | nil => simp
  | cons p rest ih =>
    rw [List.foldl_cons, ih, List.reverse_cons, List.find?_append]
    cases hfind : rest.reverse.find? (fun q => q.1 == k) with
    | some q => simp [Option.or]
    | none =>
      simp only [Option.or, mapGet_mapSet]
      by_cases hpk : p.1 = k
      · have hb : (p.1 == k) = true := by simp [hpk]
        simp [List.find?, hb, hpk]
      · have hb : (p.1 == k) = false := by simp [hpk]
        simp [List.find?, hb, hpk]

/-! Claim C2 -/

/-- Claim C2: the warehouse classifier sends a null, absent or empty
address to the unknown label 未知, an address containing none of the three
location codes to the other label 其他, and otherwise returns the label of
the first rule, in table iteration order, whose code is a substring: the
14460 rule (BI JKT) first, then 50121 (BI SMR), then 61254 (BI SBY) —
Object.entries iterates the integer-like keys of warehouseRules in
ascending numeric order. -/
theorem claim_C2 (a : String) :
    identifyWarehouse none = "未知" ∧
    identifyWarehouse (some ("")) = "未知" ∧
    identifyWarehouse (some a)
      = (if a = "" then "未知"
         else if jsIncludes a ("14460") then "BI JKT"
         else if jsIncludes a ("50121") then "BI SMR"
         else if jsIncludes a ("61254") then "BI SBY"
         else "其他") := by
  refine ⟨rfl, rfl, ?_⟩
  by_cases ha : a = ""
  · simp [identifyWarehouse, ha]
  · simp only [identifyWarehouse, warehouseRules, if_neg ha]
    cases h14 : jsIncludes a ("14460") <;>
      cases h50 : jsIncludes a ("50121") <;>
        cases h61 : jsIncludes a ("61254") <;>
          simp [List.find?, h14, h50, h61]

/-! Claim C4 -/

theorem filterMap_length_partition {α β : Type} (f : α → Option β) (l : List α) :
    (l.filterMap f).length + (l.filter (fun a => (f a).isNone)).length = l.length := by
  induction l with
  | nil => rfl
  | cons a rest ih =>
    cases h : f a <;> simp [List.filterMap_cons, h, List.filter_cons] <;> omega

/-- Claim C4: every record kept by filterValidData has a present, non-empty,
non-zero return_id and return_sn (and consists of exactly those two fields,
the type of ReturnRecord); the reported filtered-out count is the input
length minus the output length, which equals the number of dropped entries;
a non-array input yields an empty output. -/
theorem claim_C4 (arr : List (Option RawRecord)) :
    ((filterValidData (some arr)).1.all
        (fun r => itemFieldOk r.return_id && itemFieldOk r.return_sn)) = true ∧
    (filterValidData (some arr)).2 = arr.length - (filterValidData (some arr)).1.length ∧
    (filterValidData (some arr)).1.length
        + (arr.filter (fun it => (keepItem it).isNone)).length = arr.length ∧
    filterValidData none = ([], 0) := by
  refine ⟨?_, rfl, filterMap_length_partition keepItem arr, rfl⟩
  rw [List.all_eq_true]
  intro r hr
  rcases List.mem_filterMap.mp hr with ⟨it, _, hkeep⟩
  cases it with
  | none => simp [keepItem] at hkeep
  | some raw =>
    simp only [keepItem] at hkeep
    split at hkeep
    · rename_i hok
      cases hkeep
      simpa using hok
    · cases hkeep

/-! Claim C6 -/

theorem buildSnToIdMap_append (l : List ReturnRecord) (r : ReturnRecord) :
    buildSnToIdMap (l ++ [r]) = mapSet (buildSnToIdMap l) r.return_sn r.return_id := by
  simp [buildSnToIdMap, List.foldl_append]

theorem buildSnToIdMap_get (records : List ReturnRecord) (k : FieldVal) :
    mapGet (buildSnToIdMap records) k
      = Option.map ReturnRecord.return_id
          (records.reverse.find? (fun r => r.return_sn == k)) := by
  have hb : buildSnToIdMap records
      = (records.map (fun r => (r.return_sn, r.return_id))).foldl
          (fun m p => mapSet m p.1 p.2) [] := by
    rw [List.foldl_map]
    rfl
  rw [hb, foldl_mapSet_get, ← List.map_reverse, List.find?_map]
  cases hf : records.reverse.find?
      ((fun (p : FieldVal × FieldVal) => p.1 == k) ∘ fun r => (r.return_sn, r.return_id)) with
  | none =>
    have : records.reverse.find? (fun r => r.return_sn == k) = none := hf
    simp [this, mapGet]
  | some r =>
    have : records.reverse.find? (fun r => r.return_sn == k) = some r := hf
    simp [this]

theorem buildSnToIdMap_isSome (records : List ReturnRecord) (k : FieldVal) :
    (mapGet (buildSnToIdMap records) k).isSome = true
      ↔ k ∈ records.map ReturnRecord.return_sn := by
  rw [buildSnToIdMap_get]
  constructor
  · intro h
    cases hf : records.reverse.find? (fun r => r.return_sn == k) with
    | none => rw [hf] at h; simp at h
    | some r =>
      have hmem := List.mem_of_find?_eq_some hf
      have hkk : (r.return_sn == k) = true := by
        have hps := List.find?_some hf
        simpa using hps
      exact List.mem_map.mpr ⟨r, List.mem_reverse.mp hmem, beq_iff_eq.mp hkk⟩
  · intro hk
    rcases List.mem_map.mp hk with ⟨r, hr, hrk⟩
    have hex : (records.reverse.find? (fun r => r.return_sn == k)).isSome = true :=
      List.find?_isSome.mpr ⟨r, List.mem_reverse.mpr hr, beq_iff_eq.mpr hrk⟩
    cases hf : records.reverse.find? (fun r => r.return_sn == k) with
    | none => rw [hf] at hex; simp at hex
    | some r2 => simp [hf]

/-- Claim C6: after a crawl, the key-to-id index maps each key to the id of
the last occurrence of that key in the filtered record sequence (none when
the key does not occur), and its size is the number of distinct keys. -/
theorem claim_C6 (records : List ReturnRecord) (k : FieldVal) :
    mapGet (buildSnToIdMap records) k
      = Option.map ReturnRecord.return_id
          (records.reverse.find? (fun r => r.return_sn == k)) ∧
    (buildSnToIdMap records).length
      = (records.map ReturnRecord.return_sn).toFinset.card := by
  refine ⟨buildSnToIdMap_get records k, ?_⟩
  induction records using List.reverseRecOn with
  | nil => simp [buildSnToIdMap]
  | append_singleton l r ih =>
    rw [buildSnToIdMap_append, mapSet_length, List.map_append, List.toFinset_append]
    simp only [List.map_cons, List.map_nil, List.toFinset_cons, List.toFinset_nil]
    have hins : (l.map ReturnRecord.return_sn).toFinset ∪ insert r.return_sn ∅
        = insert r.return_sn (l.map ReturnRecord.return_sn).toFinset := by
      rw [Finset.union_comm]
      simp [Finset.insert_eq, Finset.insert_union]
    rw [hins]
    by_cases hmem : r.return_sn ∈ l.map ReturnRecord.return_sn
    · rw [if_pos ((buildSnToIdMap_isSome l r.return_sn).mpr hmem)]
      rw [Finset.card_insert_of_mem (List.mem_toFinset.mpr hmem), ih]
    · rw [if_neg (by simpa [buildSnToIdMap_isSome l r.return_sn] using hmem)]
      rw [Finset.card_insert_of_not_mem (by simpa using hmem), ih]

/-! Claim C7 -/

theorem filter_valid_drop_empty (l : List String) :
    (l.filter (fun line => decide (0 < line.length))).filter validateReturnSn
      = l.filter validateReturnSn := by
  rw [List.filter_filter]
  apply List.filter_congr
  intro x _
  cases h : validateReturnSn x
  · simp
  · have hlen : 3 ≤ x.length := by
      have h3 := h
      simp only [validateReturnSn, Bool.and_eq_true, decide_eq_true_eq] at h3
      exact h3.1.1
    simp only [Bool.true_and, decide_eq_true_eq]
    omega

/-- Claim C7: key parsing splits the input on newlines, trims each line,
drops empty lines, keeps exactly the lines matching the format rule
(uppercase alphanumeric, length 3 to 20 — lengths 3 and 20 valid, ab and a
21-character line invalid), reports the number of dropped invalid non-empty
lines, and signals an error exactly when zero valid keys remain. The
function is total, so parsing never throws. -/
theorem claim_C7 (input : String) :
    (parseUserInput (some input)).keys
      = ((jsSplitNewline input).map jsTrim).filter validateReturnSn ∧
    (parseUserInput (some input)).invalidCount
      = (((jsSplitNewline input).map jsTrim).filter
          (fun l => !(validateReturnSn l) && decide (0 < l.length))).length ∧
    (parseUserInput (some input)).errorShown.isSome
      = (parseUserInput (some input)).keys.isEmpty ∧
    parseUserInput none = ⟨[], 0, some ParseError.invalidInput⟩ ∧
    validateReturnSn ("ABC123") = true ∧
    validateReturnSn ("ab") = false ∧
    validateReturnSn ("ABC") = true ∧
    validateReturnSn (String.mk (List.replicate 20 'A')) = true ∧
    validateReturnSn (String.mk (List.replicate 21 'A')) = false := by
  refine ⟨?_, ?_, ?_, rfl, by decide, by decide, by decide, by decide, by decide⟩
  all_goals (
    by_cases hi : input = "")
  · subst hi; decide
  · simp only [parseUserInput, if_neg hi]
    rw [← filter_valid_drop_empty ((jsSplitNewline input).map jsTrim)]
    split <;> rename_i hv
    · exact hv.symm
    · rfl
  · subst hi; decide
  · simp only [parseUserInput, if_neg hi]
    rw [← List.filter_filter]
    split <;> rfl
  · subst hi; decide
  · simp only [parseUserInput, if_neg hi]
    split <;> rename_i hv
    · simp
    · have hne : ∀ (l : List String), l ≠ [] → l.isEmpty = false := by
        intro l hl
        cases l with
        | nil => exact absurd rfl hl
        | cons a t => rfl
      simp only [hne _ hv]
      rfl

/-! Matcher lemmas -/

theorem matchLoop_spec (m : List (String × String)) (sns : List String)
    (ms : List (String × String)) (us : List String) (cmap : List (String × String)) :
    matchLoop m sns ms us cmap
      = (ms ++ sns.filterMap (fun k => (mapGet m k).map (fun v => (k, v))),
         us ++ sns.filter (fun k => (mapGet m k).isNone),
         (sns.filterMap (fun k => (mapGet m k).map (fun v => (k, v)))).foldl
           (fun a p => mapSet a p.1 p.2) cmap) := by
  induction sns generalizing ms us cmap with
  | nil => simp [matchLoop]
  | cons sn rest ih =>
    cases h : mapGet m sn with
    | some rid =>
      simp [matchLoop, h, ih, List.filterMap_cons, List.filter_cons]
    | none =>
      simp [matchLoop, h, ih, List.filterMap_cons, List.filter_cons]

theorem find?_filterMap_get (m : List (String × String)) (k : String) (l : List String) :
    ((l.filterMap (fun s => (mapGet m s).map (fun v => (s, v)))).find?
        (fun p => p.1 == k))
      = if (mapGet m k).isSome && decide (k ∈ l) then
          (mapGet m k).map (fun v => (k, v))
        else none := by
  induction l with
  | nil => simp
  | cons a rest ih =>
    cases hg : mapGet m a with
    | none =>
      simp only [List.filterMap_cons, hg, Option.map_none', ih]
      by_cases hak : k = a
      · subst hak
        rw [hg]
        simp
      · simp [List.mem_cons, hak]
    | some v =>
      simp only [List.filterMap_cons, hg, Option.map_some', List.find?_cons]
      by_cases hak : a = k
      · have hgk : mapGet m k = some v := hak ▸ hg
        have hbeq : ((a, v).1 == k) = true := by simp [hak]
        simp [hbeq, hgk, hak.symm, List.mem_cons, hg]
      · have hbeq : ((a, v).1 == k) = false := by simp [hak]
        simp only [hbeq, ih]
        have hker : ¬ k = a := fun h => hak h.symm
        simp [List.mem_cons, hker]

/-! Claim C3 -/

/-- Claim C3: matchReturnSns called with a non-empty key list signals the
no-data error exactly when the index is absent or empty, and in that case
returns no matches with every input key unmatched; a match against a
non-empty index signals no error, even with zero hits, so the two outcomes
are distinct. -/
theorem claim_C3 (userSns : List String) (crawledMap : Option (List (String × String)))
    (c : MatcherCache) (hU : userSns ≠ []) :
    (matchReturnSns userSns crawledMap c).errorShown
      = (if mapIsEmptyOpt crawledMap then some MatcherError.noData else none) ∧
    (matchReturnSns userSns none c).outcome = ⟨[], userSns, 0⟩ ∧
    (matchReturnSns userSns (some []) c).outcome = ⟨[], userSns, 0⟩ := by
  refine ⟨?_, by simp [matchReturnSns, hU], by simp [matchReturnSns, hU]⟩
  cases crawledMap with
  | none => simp [matchReturnSns, hU, mapIsEmptyOpt]
  | some m =>
    by_cases hM : m = []
    · subst hM
      simp [matchReturnSns, hU, mapIsEmptyOpt]
    · have hE : mapIsEmptyOpt (some m) = false := by
        cases m with
        | nil => exact absurd rfl hM
        | cons p t => rfl
      simp [matchReturnSns, if_neg hU, if_neg hM, hE]

/-! Claim C5 -/

/-- Claim C5: on a non-empty key list and non-empty index, the matched
sequence is exactly the input keys found in the map, each paired with its
mapped id, the unmatched sequence is exactly the input keys not in the map,
both in input order (filterMap and filter of the input list), and the match
rate is matched count over total count times 100 rounded to one decimal. -/
theorem claim_C5 (userSns : List String) (m : List (String × String)) (c : MatcherCache)
    (hU : userSns ≠ []) (hM : m ≠ []) :
    (matchReturnSns userSns (some m) c).outcome.matched
      = userSns.filterMap (fun k => (mapGet m k).map (fun v => (k, v))) ∧
    (matchReturnSns userSns (some m) c).outcome.unmatched
      = userSns.filter (fun k => (mapGet m k).isNone) ∧
    (matchReturnSns userSns (some m) c).outcome.matchRate
      = toFixed1
          (((userSns.filterMap (fun k => (mapGet m k).map (fun v => (k, v)))).length : ℚ)
            / (userSns.length : ℚ) * 100) := by
  simp only [matchReturnSns, if_neg hU, if_neg hM]
  rw [matchLoop_spec]
  simp

/-! Claim C10 -/

/-- Claim C10: one matchReturnSns call on a non-empty key list and
non-empty index updates the cumulative snToIdMap cache exactly at the keys
it matched (input keys present in the index, which receive the index value)
and leaves every other cached entry unchanged, so entries recorded by
earlier calls survive and getReturnId still returns them; clearCache
empties the cache, after which every getReturnId lookup returns null. -/
theorem claim_C10 (userSns : List String) (m : List (String × String))
    (c : MatcherCache) (k : String) (hU : userSns ≠ []) (hM : m ≠ []) :
    mapGet (matchReturnSns userSns (some m) c).cache.snToIdMap k
      = (if (mapGet m k).isSome && decide (k ∈ userSns) then mapGet m k
         else mapGet c.snToIdMap k) ∧
    getReturnId (matchReturnSns userSns (some m) c).cache k
      = (if (mapGet m k).isSome && decide (k ∈ userSns) then jsOrNull (mapGet m k)
         else getReturnId c k) ∧
    getReturnId (clearCache c) k = none := by
  have h1 : mapGet (matchReturnSns userSns (some m) c).cache.snToIdMap k
      = (if (mapGet m k).isSome && decide (k ∈ userSns) then mapGet m k
         else mapGet c.snToIdMap k) := by
    simp only [matchReturnSns, if_neg hU, if_neg hM]
    rw [matchLoop_spec]
    simp only [MatchCall.cache]
    rw [foldl_mapSet_get, ← List.filterMap_reverse, find?_filterMap_get]
    have hmr : decide (k ∈ userSns.reverse) = decide (k ∈ userSns) := by
      simp [List.mem_reverse]
    rw [hmr]
    by_cases hc : ((mapGet m k).isSome && decide (k ∈ userSns)) = true
    · rw [if_pos hc, if_pos hc]
      cases hv : mapGet m k with
      | none => rw [hv] at hc; simp at hc
      | some v => simp [hv]
    · rw [if_neg hc, if_neg hc]
  refine ⟨h1, ?_, rfl⟩
  rw [getReturnId, h1]
  by_cases hc : ((mapGet m k).isSome && decide (k ∈ userSns)) = true
  · rw [if_pos hc, if_pos hc]
  · rw [if_neg hc, if_neg hc]
    rfl

/-! Claim C1 -/

/-- Claim C1: exactly one of the timeout path and the message path resolves
a pair. If the timer fires first, it resolves with the timeout result and
removes the id from the processing set; a correlated message arriving
afterwards does not change the resolved result (a JS promise resolves only
once), although its handler still runs and stores its classified result in
the results cache. If the correlated message arrives first, the pair
resolves with the message-derived result, the timer is cancelled, and the
cancelled timer firing afterwards is a no-op. -/
theorem claim_C1 (sn id : String) (m : MessageData)
    (hT : m.type = "SHOPEE_ADDRESS_EXTRACTED") (hO : m.orderId = id) :
    (stepEvent sn id initState .timerFire).promiseResult = some (timeoutResult sn id) ∧
    (stepEvent sn id initState .timerFire).processingHas = false ∧
    (stepEvent sn id (stepEvent sn id initState .timerFire) (.message m)).promiseResult
      = some (timeoutResult sn id) ∧
    (stepEvent sn id (stepEvent sn id initState .timerFire) (.message m)).cacheResult
      = some (messageResult sn id m) ∧
    (stepEvent sn id initState (.message m)).promiseResult = some (messageResult sn id m) ∧
    (stepEvent sn id initState (.message m)).timerCleared = true ∧
    stepEvent sn id (stepEvent sn id initState (.message m)) .timerFire
      = stepEvent sn id initState (.message m) := by
  have hmsg : isAddrMsg id m = true := by simp [isAddrMsg, hT, hO]
  refine ⟨rfl, rfl, ?_, ?_, ?_, ?_, ?_⟩ <;>
    simp [stepEvent, initState, hmsg, resolveOnce]

theorem claim_C1_witness :
    msgEx.type = "SHOPEE_ADDRESS_EXTRACTED" ∧ msgEx.orderId = "ID1" ∧
    ((stepEvent ("SN1") ("ID1") initState .timerFire).promiseResult
        = some (timeoutResult ("SN1") ("ID1")) ∧
     (stepEvent ("SN1") ("ID1") initState .timerFire).processingHas = false ∧
     (stepEvent ("SN1") ("ID1") (stepEvent ("SN1") ("ID1") initState .timerFire)
        (.message msgEx)).promiseResult = some (timeoutResult ("SN1") ("ID1")) ∧
     (stepEvent ("SN1") ("ID1") (stepEvent ("SN1") ("ID1") initState .timerFire)
        (.message msgEx)).cacheResult = some (messageResult ("SN1") ("ID1") msgEx) ∧
     (stepEvent ("SN1") ("ID1") initState (.message msgEx)).promiseResult
        = some (messageResult ("SN1") ("ID1") msgEx) ∧
     (stepEvent ("SN1") ("ID1") initState (.message msgEx)).timerCleared = true ∧
     stepEvent ("SN1") ("ID1") (stepEvent ("SN1") ("ID1") initState (.message msgEx)) .timerFire
        = stepEvent ("SN1") ("ID1") initState (.message msgEx)) :=
  ⟨rfl, rfl, claim_C1 ("SN1") ("ID1") msgEx rfl rfl⟩

/-! Claim C8 -/

theorem refill_append (max : Nat) (q infl : List (String × String)) :
    (refill max q infl).2 ++ (refill max q infl).1 = infl ++ q := by
  induction q generalizing infl with
  | nil => simp [refill]
  | cons p rest ih =>
    simp only [refill]
    by_cases h : infl.length < max
    · rw [if_pos h, ih]
      simp
    · rw [if_neg h]

theorem refill_nil_of_pos (max : Nat) (hm : 0 < max) (q infl : List (String × String)) :
    (refill max q infl).2 = [] → (refill max q infl).1 = [] := by
  induction q generalizing infl with
  | nil => intro _; rfl
  | cons p rest ih =>
    simp only [refill]
    by_cases h : infl.length < max
    · rw [if_pos h]
      exact ih _
    · rw [if_neg h]
      intro h2
      subst h2
      simp at h
      omega

theorem getD_cons_eraseIdx_perm {α : Type} (l : List α) (i : Nat) (d : α)
    (h : i < l.length) :
    List.Perm (l.getD i d :: l.eraseIdx i) l := by
  induction l generalizing i with
  | nil => simp at h
  | cons a t ih =>
    cases i with
    | zero =>
      simp only [List.getD_cons_zero, List.eraseIdx_cons_zero]
      exact List.Perm.refl _
    | succ j =>
      have hj : j < t.length := by simpa using h
      simp only [List.getD_cons_succ, List.eraseIdx_cons_succ]
      exact (List.Perm.swap a (t.getD j d) (t.eraseIdx j)).trans
        (List.Perm.cons a (ih j hj))

theorem runPool_spec (f : (String × String) → EnrichResult) (sched : List Nat)
    (st : PoolState) (h : st.queue.length + st.inflight.length ≤ sched.length) :
    (runPool f 3 sched st).queue = [] ∧
    (runPool f 3 sched st).inflight = [] ∧
    List.Perm (runPool f 3 sched st).results
      (st.results ++ (st.inflight ++ st.queue).map f) := by
  induction sched generalizing st with
  | nil =>
    have h0 : st.queue.length + st.inflight.length ≤ 0 := by simpa using h
    have hq : st.queue = [] := List.eq_nil_of_length_eq_zero (by omega)
    have hi : st.inflight = [] := List.eq_nil_of_length_eq_zero (by omega)
    refine ⟨by simp [runPool, refill, hq, hi], by simp [runPool, refill, hq, hi], ?_⟩
    simp only [runPool, refill, hq, hi, List.nil_append, List.map_nil, List.append_nil]
    exact List.Perm.refl st.results
  | cons cNat rest ih =>
    rcases hre : refill 3 st.queue st.inflight with ⟨q2, infl2⟩
    have happ : infl2 ++ q2 = st.inflight ++ st.queue := by
      have hap := refill_append 3 st.queue st.inflight
      rw [hre] at hap
      exact hap
    cases infl2 with
    | nil =>
      have hq2 : q2 = [] := by
        have hnil := refill_nil_of_pos 3 (by omega) st.queue st.inflight
        rw [hre] at hnil
        exact hnil rfl
      subst hq2
      simp only [List.nil_append] at happ
      refine ⟨by simp [runPool, hre], by simp [runPool, hre], ?_⟩
      have hmapnil : (st.inflight ++ st.queue).map f = [] := by rw [← happ]; rfl
      simp only [runPool, hre, hmapnil, List.append_nil]
      exact List.Perm.refl st.results
    | cons x xs =>
      have hi : cNat % (x :: xs).length < (x :: xs).length :=
        Nat.mod_lt cNat (Nat.succ_pos xs.length)
      have h1 : xs.length + 1 + q2.length = st.inflight.length + st.queue.length := by
        have hc := congrArg List.length happ
        simp only [List.length_append, List.length_cons] at hc
        omega
      have hlen2 : q2.length + ((x :: xs).eraseIdx (cNat % (x :: xs).length)).length
          ≤ rest.length := by
        rw [List.length_eraseIdx, if_pos hi]
        have hh := h
        simp only [List.length_cons] at hh ⊢
        omega
      have hstep := ih ⟨q2, (x :: xs).eraseIdx (cNat % (x :: xs).length),
        st.results ++ [f ((x :: xs).getD (cNat % (x :: xs).length) x)]⟩ hlen2
      have hrun : runPool f 3 (cNat :: rest) st
          = runPool f 3 rest ⟨q2, (x :: xs).eraseIdx (cNat % (x :: xs).length),
              st.results ++ [f ((x :: xs).getD (cNat % (x :: xs).length) x)]⟩ := by
        simp [runPool, hre]
      rw [hrun]
      refine ⟨hstep.1, hstep.2.1, ?_⟩
      refine hstep.2.2.trans ?_
      rw [← happ]
      rw [List.map_append, List.map_append, List.append_assoc]
      apply List.Perm.append_left
      rw [← List.append_assoc]
      apply List.Perm.append_right
      have hperm := (getD_cons_eraseIdx_perm (x :: xs) (cNat % (x :: xs).length) x hi).map f
      simpa using hperm

theorem extractAddress_timeout (sn id : String) (msgs : List MessageData)
    (hm : ∀ mg ∈ msgs, isAddrMsg id mg = false) :
    extractAddress sn id (.events msgs) = timeoutResult sn id := by
  have hfold : msgs.foldl (fun st mg => stepEvent sn id st (.message mg)) initState
      = initState := by
    induction msgs with
    | nil => rfl
    | cons mg rest ih =>
      rw [List.foldl_cons]
      have h1 : stepEvent sn id initState (.message mg) = initState := by
        simp [stepEvent, initState, hm mg (by simp)]
      rw [h1]
      exact ih (fun x hx => hm x (by simp [hx]))
  simp only [extractAddress]
  rw [hfold]
  simp [stepEvent, initState, resolveOnce]

/-- Claim C8: the batch operation completes with exactly one result for
every dispatched pair — the pool drains the queue and all in-flight work,
and its result multiset is exactly the per-pair extraction results, no
matter which pairs fail — and every per-pair failure (blocked window, or
timeout including runs whose messages never correlate) is captured as a
failed EnrichResult with a descriptive address and unknown warehouse
rather than thrown (the per-pair operation is a total function into
EnrichResult). -/
theorem claim_C8 (env : (String × String) → PairBehavior)
    (pairs : List (String × String)) (sched : List Nat)
    (sn id : String) (msgs : List MessageData)
    (hlen : pairs.length ≤ sched.length)
    (hm : msgs.all (fun mg => !(isAddrMsg id mg)) = true) :
    (extractAddresses env pairs sched).queue = [] ∧
    (extractAddresses env pairs sched).inflight = [] ∧
    (extractAddresses env pairs sched).results.length = pairs.length ∧
    List.Perm (extractAddresses env pairs sched).results
      (pairs.map (fun pr => extractAddress pr.1 pr.2 (env pr))) ∧
    extractAddress sn id .blocked = blockedResult sn id ∧
    extractAddress sn id (.events msgs) = timeoutResult sn id ∧
    (blockedResult sn id).success = false ∧ (blockedResult sn id).warehouse = "未知" ∧
    (timeoutResult sn id).success = false ∧ (timeoutResult sn id).warehouse = "未知" := by
  have hpool := runPool_spec (fun pr => extractAddress pr.1 pr.2 (env pr)) sched
    ⟨pairs, [], []⟩ (by simpa using hlen)
  have hunfold : extractAddresses env pairs sched
      = runPool (fun pr => extractAddress pr.1 pr.2 (env pr)) 3 sched ⟨pairs, [], []⟩ := rfl
  have hperm : List.Perm (extractAddresses env pairs sched).results
      (pairs.map (fun pr => extractAddress pr.1 pr.2 (env pr))) := by
    rw [hunfold]
    simpa using hpool.2.2
  refine ⟨by rw [hunfold]; exact hpool.1, by rw [hunfold]; exact hpool.2.1, ?_, hperm,
    rfl, ?_, rfl, rfl, rfl, rfl⟩
  · rw [hperm.length_eq, List.length_map]
  · refine extractAddress_timeout sn id msgs ?_
    intro mg hmg
    have := List.all_eq_true.mp hm mg hmg
    simpa using this

theorem claim_C8_witness :
    ([(("A11" : String), ("1" : String)), (("B22" : String), ("2" : String))].length
        ≤ ([0, 1, 0] : List Nat).length) ∧
    (([⟨"WRONGTYPE", "ID9", true, none⟩] : List MessageData).all
        (fun mg => !(isAddrMsg ("ID9") mg)) = true) ∧
    ((extractAddresses (fun _ => .events []) [("A11", "1"), ("B22", "2")] [0, 1, 0]).queue = [] ∧
     (extractAddresses (fun _ => .events []) [("A11", "1"), ("B22", "2")] [0, 1, 0]).inflight = [] ∧
     (extractAddresses (fun _ => .events []) [("A11", "1"), ("B22", "2")] [0, 1, 0]).results.length
        = [(("A11" : String), ("1" : String)), (("B22" : String), ("2" : String))].length ∧
     List.Perm (extractAddresses (fun _ => .events []) [("A11", "1"), ("B22", "2")] [0, 1, 0]).results
        ([("A11", "1"), ("B22", "2")].map
          (fun pr => extractAddress pr.1 pr.2 ((fun _ => .events []) pr))) ∧
     extractAddress ("X") ("ID9") .blocked = blockedResult ("X") ("ID9") ∧
     extractAddress ("X") ("ID9")
        (.events [⟨"WRONGTYPE", "ID9", true, none⟩]) = timeoutResult ("X") ("ID9") ∧
     (blockedResult ("X") ("ID9")).success = false ∧
     (blockedResult ("X") ("ID9")).warehouse = "未知" ∧
     (timeoutResult ("X") ("ID9")).success = false ∧
     (timeoutResult ("X") ("ID9")).warehouse = "未知") :=
  ⟨by decide, by decide,
   claim_C8 (fun _ => .events []) [("A11", "1"), ("B22", "2")] [0, 1, 0]
     ("X") ("ID9") [⟨"WRONGTYPE", "ID9", true, none⟩] (by decide) (by decide)⟩

/-! Claim C9 -/

theorem crawlLoop_succ (server : Nat → FetchOutcome) (fuel page : Nat) (offset : Int)
    (acc : List (Option RawRecord)) :
    crawlLoop server (fuel + 1) page offset acc
      = crawlBody (server page) page offset acc
          (fun pg off ac => crawlLoop server fuel pg off ac) := rfl

theorem crawlBody_cases (res : FetchOutcome) (page : Nat) (offset : Int)
    (acc : List (Option RawRecord)) :
    (∃ v, ∀ recurse, crawlBody res page offset acc recurse = some v) ∨
    (∃ off2 acc2, ∀ recurse, crawlBody res page offset acc recurse
        = recurse (page + 1) off2 acc2) := by
  cases res with
  | err => exact Or.inl ⟨acc, fun recurse => rfl⟩
  | ok resp =>
    cases hitems : respItems resp.respData with
    | none => exact Or.inl ⟨acc, fun recurse => by simp [crawlBody, hitems]⟩
    | some items =>
      by_cases hempty : items = []
      · exact Or.inl ⟨acc, fun recurse => by simp [crawlBody, hitems, hempty]⟩
      · cases hpag : resp.pagination with
        | none =>
          exact Or.inr ⟨offset, acc ++ items,
            fun recurse => by simp [crawlBody, hitems, hempty, hpag]⟩
        | some pinfo =>
          by_cases hfalse : pinfo.has_more = some false
          · exact Or.inl ⟨acc ++ items,
              fun recurse => by simp [crawlBody, hitems, hempty, hpag, hfalse]⟩
          · by_cases hcoerce : coerceHasMore pinfo.has_more = true
            · exact Or.inr ⟨nextOffset page pinfo, acc ++ items,
                fun recurse => by simp [crawlBody, hitems, hempty, hpag, hfalse, hcoerce]⟩
            · exact Or.inl ⟨acc ++ items,
                fun recurse => by simp [crawlBody, hitems, hempty, hpag, hfalse, hcoerce]⟩

theorem crawlBody_terminal (res : FetchOutcome) (page : Nat) (offset : Int)
    (acc : List (Option RawRecord))
    (recurse : Nat → Int → List (Option RawRecord) → Option (List (Option RawRecord)))
    (ht : isTerminalResp res = true) :
    (crawlBody res page offset acc recurse).isSome = true := by
  cases res with
  | err => simp [crawlBody]
  | ok resp =>
    cases hitems : respItems resp.respData with
    | none => simp [crawlBody, hitems]
    | some items =>
      simp only [isTerminalResp, hitems] at ht
      by_cases hempty : items = []
      · simp [crawlBody, hitems, hempty]
      · have hie : items.isEmpty = false := by
          cases items with
          | nil => exact absurd rfl hempty
          | cons a t => rfl
        rw [hie, Bool.false_or] at ht
        cases hpag : resp.pagination with
        | none => rw [hpag] at ht; simp at ht
        | some pinfo =>
          rw [hpag] at ht
          simp only [beq_iff_eq] at ht
          simp [crawlBody, hitems, hempty, hpag, ht]

theorem crawlLoop_isSome_of_terminal (server : Nat → FetchOutcome) :
    ∀ (d fuel page : Nat) (offset : Int) (acc : List (Option RawRecord)),
    isTerminalResp (server (page + d)) = true → d < fuel →
    (crawlLoop server fuel page offset acc).isSome = true := by
  intro d
  induction d with
  | zero =>
    intro fuel page offset acc hterm hfuel
    cases fuel with
    | zero => omega
    | succ f =>
      rw [crawlLoop_succ]
      exact crawlBody_terminal _ _ _ _ _ (by simpa using hterm)
  | succ d ih =>
    intro fuel page offset acc hterm hfuel
    cases fuel with
    | zero => omega
    | succ f =>
      rw [crawlLoop_succ]
      rcases crawlBody_cases (server page) page offset acc with ⟨v, hv⟩ | ⟨off2, acc2, hrec⟩
      · rw [hv]
        rfl
      · rw [hrec]
        refine ih f (page + 1) off2 acc2 ?_ (by omega)
        rw [show page + 1 + d = page + (d + 1) by omega]
        exact hterm

theorem crawlLoop_mono (server : Nat → FetchOutcome) :
    ∀ (fuel fuel2 page : Nat) (offset : Int) (acc : List (Option RawRecord)),
    fuel ≤ fuel2 → (crawlLoop server fuel page offset acc).isSome = true →
    crawlLoop server fuel2 page offset acc = crawlLoop server fuel page offset acc := by
  intro fuel
  induction fuel with
  | zero =>
    intro fuel2 page offset acc _ hs
    simp [crawlLoop] at hs
  | succ f ih =>
    intro fuel2 page offset acc hle hs
    cases fuel2 with
    | zero => omega
    | succ f2 =>
      rw [crawlLoop_succ ] at hs
      rw [crawlLoop_succ, crawlLoop_succ]
      rcases crawlBody_cases (server page) page offset acc with ⟨v, hv⟩ | ⟨off2, acc2, hrec⟩
      · rw [hv, hv]
      · rw [hrec, hrec]
        rw [hrec] at hs
        exact ih f2 (page + 1) off2 acc2 (by omega) hs

/-- Claim C9: if the server eventually answers some page p with one of the
three terminating conditions — an error, a missing or empty record array,
or has_more explicitly false — then the crawl loop starting at page 1
finishes within p iterations: any fuel of at least p completes (the loop
cannot spin forever under the precondition) and yields the same final
record list as fuel exactly p, and each terminating condition exits the
loop at the page where it occurs. -/
theorem claim_C9 (server : Nat → FetchOutcome) (p fuel : Nat)
    (hterm : isTerminalResp (server p) = true) (hp : 1 ≤ p) (hfuel : p ≤ fuel) :
    (crawlLoop server fuel 1 0 []).isSome = true ∧
    crawlLoop server fuel 1 0 [] = crawlLoop server p 1 0 [] := by
  have hd : isTerminalResp (server (1 + (p - 1))) = true := by
    rw [show 1 + (p - 1) = p by omega]
    exact hterm
  have h1 : (crawlLoop server p 1 0 []).isSome = true :=
    crawlLoop_isSome_of_terminal server (p - 1) p 1 0 [] hd (by omega)
  have h2 : (crawlLoop server fuel 1 0 []).isSome = true :=
    crawlLoop_isSome_of_terminal server (p - 1) fuel 1 0 [] hd (by omega)
  exact ⟨h2, crawlLoop_mono server p fuel 1 0 [] hfuel h1⟩

theorem claim_C9_witness :
    isTerminalResp (serverEx 3) = true ∧ 1 ≤ 3 ∧ 3 ≤ 5 ∧
    ((crawlLoop serverEx 5 1 0 []).isSome = true ∧
     crawlLoop serverEx 5 1 0 [] = crawlLoop serverEx 3 1 0 []) :=
  ⟨by decide, by decide, by decide, claim_C9 serverEx 3 5 (by decide) (by decide) (by decide)⟩

/-! Witnesses for the matcher claims -/

theorem claim_C3_witness :
    (["ABC123"] : List String) ≠ [] ∧
    ((matchReturnSns ["ABC123"] (some [("ZZZ", "9")]) ⟨[], [], [], []⟩).errorShown
        = (if mapIsEmptyOpt (some [("ZZZ", "9")]) then some MatcherError.noData else none) ∧
     (matchReturnSns ["ABC123"] none ⟨[], [], [], []⟩).outcome = ⟨[], ["ABC123"], 0⟩ ∧
     (matchReturnSns ["ABC123"] (some []) ⟨[], [], [], []⟩).outcome = ⟨[], ["ABC123"], 0⟩) :=
  ⟨by decide, claim_C3 ["ABC123"] (some [("ZZZ", "9")]) ⟨[], [], [], []⟩ (by decide)⟩

theorem claim_C5_witness :
    (["A11", "B22"] : List String) ≠ [] ∧
    ([(("A11" : String), ("7" : String))] : List (String × String)) ≠ [] ∧
    ((matchReturnSns ["A11", "B22"] (some [("A11", "7")]) ⟨[], [], [], []⟩).outcome.matched
        = ["A11", "B22"].filterMap
            (fun k => (mapGet [("A11", "7")] k).map (fun v => (k, v))) ∧
     (matchReturnSns ["A11", "B22"] (some [("A11", "7")]) ⟨[], [], [], []⟩).outcome.unmatched
        = ["A11", "B22"].filter (fun k => (mapGet [("A11", "7")] k).isNone) ∧
     (matchReturnSns ["A11", "B22"] (some [("A11", "7")]) ⟨[], [], [], []⟩).outcome.matchRate
        = toFixed1
            (((["A11", "B22"].filterMap
                (fun k => (mapGet [("A11", "7")] k).map (fun v => (k, v)))).length : ℚ)
              / ((["A11", "B22"] : List String).length : ℚ) * 100)) :=
  ⟨by decide, by decide,
   claim_C5 ["A11", "B22"] [("A11", "7")] ⟨[], [], [], []⟩ (by decide) (by decide)⟩

theorem claim_C10_witness :
    (["A11"] : List String) ≠ [] ∧
    ([(("A11" : String), ("7" : String))] : List (String × String)) ≠ [] ∧
    (mapGet (matchReturnSns ["A11"] (some [("A11", "7")])
        ⟨[], [], [], [("OLD", "5")]⟩).cache.snToIdMap ("OLD")
      = (if (mapGet [("A11", "7")] ("OLD")).isSome && decide (("OLD" : String) ∈ ["A11"])
         then mapGet [("A11", "7")] ("OLD")
         else mapGet [(("OLD" : String), ("5" : String))] ("OLD")) ∧
     getReturnId (matchReturnSns ["A11"] (some [("A11", "7")])
        ⟨[], [], [], [("OLD", "5")]⟩).cache ("OLD")
      = (if (mapGet [("A11", "7")] ("OLD")).isSome && decide (("OLD" : String) ∈ ["A11"])
         then jsOrNull (mapGet [("A11", "7")] ("OLD"))
         else getReturnId ⟨[], [], [], [("OLD", "5")]⟩ ("OLD")) ∧
     getReturnId (clearCache ⟨[], [], [], [("OLD", "5")]⟩) ("OLD") = none) :=
  ⟨by decide, by decide,
   claim_C10 ["A11"] [("A11", "7")] ⟨[], [], [], [("OLD", "5")]⟩ ("OLD")
     (by decide) (by decide)⟩

end Shopee
